import Mathlib

/-!
Verification development for the Hotel POS backend (`main.py`, `schemas.py`).

The Python endpoints are shallowly embedded as pure Lean functions over an
explicit `Store` state.  Monetary amounts (Python floats) are modelled as
exact rationals; Python's `round(x, 2)` is modelled as round-half-to-even
on rationals (`round2`).  MongoDB ObjectIds are modelled as naturals and
`datetime` instants as naturals (`created_at` ordering) together with a
broken-down `DTime` for `strftime` formatting.
-/

set_option maxRecDepth 100000

namespace HotelPOS

/-- Round-half-to-even to an integer, as Python's `round` does. -/
def roundHalfEven (q : ℚ) : ℤ :=
  let f : ℤ := ⌊q⌋
  let frac : ℚ := q - f
  if frac < 1/2 then f
  else if 1/2 < frac then f + 1
  else if f % 2 = 0 then f else f + 1

/-- Python's `round(q, 2)`: round to two decimal places, ties to even. -/
def round2 (q : ℚ) : ℚ := (roundHalfEven (q * 100) : ℚ) / 100

/-- Decimal digit characters of a natural number, fuel-based so that the
kernel can reduce it (the fuel `n + 1` always suffices). -/
def decCharsAux : ℕ → ℕ → List Char
  | 0, _ => []
  | fuel + 1, n =>
    if n < 10 then [Nat.digitChar n]
    else decCharsAux fuel (n / 10) ++ [Nat.digitChar (n % 10)]

/-- Decimal digit characters of a natural number (standard base-10 repr). -/
def decChars (n : ℕ) : List Char := decCharsAux (n + 1) n

/-- Python's `f"{n:0wd}"` for a natural `n`: decimal repr zero-padded to width `w`. -/
def padZeros (w n : ℕ) : String :=
  ⟨List.replicate (w - (decChars n).length) '0' ++ decChars n⟩

/-- A broken-down UTC wall-clock instant (`datetime.utcnow()`). -/
structure DTime where
  year : ℕ
  month : ℕ
  day : ℕ
  hour : ℕ
  minute : ℕ
  second : ℕ
deriving DecidableEq

/-- `datetime.strftime('%Y%m%d%H%M%S')`. -/
def strftime_YmdHMS (d : DTime) : String :=
  padZeros 4 d.year ++ padZeros 2 d.month ++ padZeros 2 d.day ++
    padZeros 2 d.hour ++ padZeros 2 d.minute ++ padZeros 2 d.second

/-- An inventory item document (collection `item`). -/
structure Item where
  name : String
  price : ℚ
  sku : Option String
  stock : ℤ
  category : Option String
  is_active : Bool
  created_at : ℕ
  updated_at : ℕ
deriving DecidableEq

/-- Request body of `POST /api/items` (`ItemIn` in `main.py`: no bound on `price`). -/
structure ItemIn where
  name : String
  price : ℚ
  sku : Option String := none
  stock : ℤ := 0
  category : Option String := none
  is_active : Bool := true
deriving DecidableEq

/-- Request body of `PUT /api/items/{id}` (`ItemUpdate`): every field optional. -/
structure ItemUpdate where
  name : Option String := none
  price : Option ℚ := none
  sku : Option String := none
  stock : Option ℤ := none
  category : Option String := none
  is_active : Option Bool := none
deriving DecidableEq

/-- One line of a sale request (`SaleItemIn`). -/
structure SaleItemIn where
  item_id : ℕ
  quantity : ℤ
deriving DecidableEq

/-- Request body of `POST /api/sales` (`SaleIn`). -/
structure SaleIn where
  items : List SaleItemIn
  cashier : Option String := none
  note : Option String := none
  paid : ℚ
deriving DecidableEq

/-- A line item snapshot embedded in a persisted sale. -/
structure LineItem where
  item_id : ℕ
  name : String
  price : ℚ
  quantity : ℤ
  line_total : ℚ
deriving DecidableEq

/-- A persisted sale document (collection `sale`). -/
structure Sale where
  items : List LineItem
  cashier : Option String
  note : Option String
  subtotal : ℚ
  tax : ℚ
  total : ℚ
  paid : ℚ
  change : ℚ
  receipt_no : String
  created_at : ℕ
deriving DecidableEq

/-- HTTP-level failure of an endpoint.  `badRequest` carries the `detail`
message (status 400); `unprocessable` is FastAPI's rejection of an invalid
query/body parameter (status 422); `internal` is an unhandled exception
propagating out of the handler (status 500). -/
inductive ApiError where
  | badRequest (msg : String)
  | notFound
  | unprocessable
  | internal
deriving DecidableEq

deriving instance DecidableEq for Except

/-- HTTP status code of an `ApiError`. -/
def ApiError.status : ApiError → ℕ
  | .badRequest _ => 400
  | .notFound => 404
  | .unprocessable => 422
  | .internal => 500

/-- The document store: `item` and `sale` collections plus the `counters`
document with `_id = "receipt"` (absent until first allocation). -/
structure Store where
  items : List (ℕ × Item)
  sales : List Sale
  counter : Option ℕ
deriving DecidableEq

/-- `db["item"].find_one({"_id": id})`: first entry with the given id
(`_id` is unique in MongoDB, so first-match lookup is faithful). -/
def lookupItem (id : ℕ) : List (ℕ × Item) → Option Item
  | [] => none
  | (k, it) :: rest => if k = id then some it else lookupItem id rest

/-- `db["item"].find_one({"_id": id, "is_active": True})` (line 188 of
`main.py`): the item only if it exists and is active. -/
def findActiveItem (st : Store) (id : ℕ) : Option Item :=
  match lookupItem id st.items with
  | some it => if it.is_active then some it else none
  | none => none

/-- `db["item"].update_one({"_id": id}, ...)`: rewrite the first entry with
the given id, leave everything else alone (no-op when the id is absent). -/
def updateFirst (id : ℕ) (f : Item → Item) : List (ℕ × Item) → List (ℕ × Item)
  | [] => []
  | (k, it) :: rest =>
    if k = id then (k, f it) :: rest else (k, it) :: updateFirst id f rest

/-- The atomic `find_one_and_update({"_id": "receipt"}, {"$inc": {"seq": 1}},
upsert=True, return_document=AFTER)` on the `counters` collection: the
counter starts effectively at 0, each allocation increments and returns it. -/
def next_seq (st : Store) : ℕ × Store :=
  let c := st.counter.getD 0
  (c + 1, { st with counter := some (c + 1) })

/-- `generate_receipt_no` (`main.py` lines 168-174). -/
def generate_receipt_no (d : DTime) (st : Store) : String × Store :=
  ("R" ++ strftime_YmdHMS d ++ "-" ++ padZeros 4 (next_seq st).1, (next_seq st).2)

/-- The validation loop of `create_sale` (`main.py` lines 187-202): for each
requested line, in order, fetch the active item, check stock, and build the
line-item snapshot. -/
def buildLines (st : Store) : List SaleItemIn → Except ApiError (List LineItem)
  | [] => .ok []
  | it :: rest =>
    match findActiveItem st it.item_id with
    | none => .error (.badRequest ("Item not available: " ++ toString it.item_id))
    | some doc =>
      if doc.stock < it.quantity then
        .error (.badRequest ("Insufficient stock for " ++ doc.name))
      else
        match buildLines st rest with
        | .error e => .error e
        | .ok tl =>
          .ok ({ item_id := it.item_id, name := doc.name, price := doc.price,
                 quantity := it.quantity,
                 line_total := doc.price * (it.quantity : ℚ) } :: tl)

/-- The running `subtotal += line_total` accumulation of `create_sale`. -/
def sumLineTotals (ls : List LineItem) : ℚ :=
  ls.foldl (fun a li => a + li.line_total) 0

/-- Step 7 of `create_sale` (lines 232-233): per line item,
`$inc stock by -quantity` and `$set updated_at`. -/
def applyDecrements (now : ℕ) (st : Store) (ls : List LineItem) : Store :=
  ls.foldl
    (fun s li =>
      { s with
        items := updateFirst li.item_id
          (fun it => { it with stock := it.stock - li.quantity, updated_at := now })
          s.items })
    st

/-- `POST /api/sales` (`create_sale`, `main.py` lines 177-237).  The pair is
(response, resulting store); an error response is raised before any write,
so it is paired with the unchanged store. -/
def create_sale (d : DTime) (now : ℕ) (st : Store) (req : SaleIn) :
    Except ApiError Sale × Store :=
  if req.items = [] then (.error (.badRequest "No items in sale"), st)
  else
    match buildLines st req.items with
    | .error e => (.error e, st)
    | .ok line_items =>
      let subtotal := sumLineTotals line_items
      let tax := round2 (subtotal * 0)
      let total := round2 (subtotal + tax)
      if req.paid < total then
        (.error (.badRequest "Paid amount is less than total"), st)
      else
        let change := round2 (req.paid - total)
        let rn := generate_receipt_no d st
        let sale : Sale :=
          { items := line_items, cashier := req.cashier, note := req.note,
            subtotal := round2 subtotal, tax := tax, total := total,
            paid := req.paid, change := change, receipt_no := rn.1,
            created_at := now }
        let st2 := { rn.2 with sales := rn.2.sales ++ [sale] }
        (.ok sale, applyDecrements now st2 line_items)

/-- `POST /api/items` (`create_item`, lines 133-139).  `ItemIn` places no
constraint on `price`, so every parsed payload is accepted and inserted. -/
def create_item (now : ℕ) (newId : ℕ) (st : Store) (payload : ItemIn) :
    Except ApiError Item × Store :=
  let doc : Item :=
    { name := payload.name, price := payload.price, sku := payload.sku,
      stock := payload.stock, category := payload.category,
      is_active := payload.is_active, created_at := now, updated_at := now }
  (.ok doc, { st with items := st.items ++ [(newId, doc)] })

/-- The `$set` document of `update_item` (line 146): only non-null payload
fields, plus the refreshed `updated_at`. -/
def applyPatch (now : ℕ) (p : ItemUpdate) (it : Item) : Item :=
  { name := p.name.getD it.name,
    price := p.price.getD it.price,
    sku := match p.sku with | some s => some s | none => it.sku,
    stock := p.stock.getD it.stock,
    category := match p.category with | some c => some c | none => it.category,
    is_active := p.is_active.getD it.is_active,
    created_at := it.created_at,
    updated_at := now }

/-- `PUT /api/items/{item_id}` (`update_item`, lines 142-151): 404 when no
document matches, otherwise `$set` the supplied fields and return the
re-fetched document. -/
def update_item (now : ℕ) (st : Store) (id : ℕ) (p : ItemUpdate) :
    Except ApiError Item × Store :=
  match lookupItem id st.items with
  | none => (.error .notFound, st)
  | some _ =>
    let st' := { st with items := updateFirst id (applyPatch now p) st.items }
    match lookupItem id st'.items with
    | some it' => (.ok it', st')
    | none => (.error .notFound, st')

/-- Numeric value of a decimal digit character. -/
def digitVal (c : Char) : ℕ := c.toNat - 48

/-- Modelled from the Python standard library: `datetime.fromisoformat`,
restricted to the `YYYY-MM-DD` and `YYYY-MM-DD(T| )HH:MM:SS` shapes (the
formats relevant to this API); any other string fails to parse, as the
real function raises `ValueError`.  The result is an abstract instant
(only parse success/failure and ordering matter to the endpoints). -/
def fromisoChars : List Char → Option ℕ
  | [y1, y2, y3, y4, '-', m1, m2, '-', d1, d2] =>
    if (y1.isDigit && y2.isDigit && y3.isDigit && y4.isDigit &&
        m1.isDigit && m2.isDigit && d1.isDigit && d2.isDigit) then
      let y := ((digitVal y1 * 10 + digitVal y2) * 10 + digitVal y3) * 10 + digitVal y4
      let m := digitVal m1 * 10 + digitVal m2
      let dd := digitVal d1 * 10 + digitVal d2
      if 1 ≤ m ∧ m ≤ 12 ∧ 1 ≤ dd ∧ dd ≤ 31 then
        some ((((y * 13 + m) * 32 + dd) * 24 * 3600))
      else none
    else none
  | [y1, y2, y3, y4, '-', m1, m2, '-', d1, d2, sep, h1, h2, ':', n1, n2, ':', s1, s2] =>
    if ((sep = 'T' || sep = ' ') && y1.isDigit && y2.isDigit && y3.isDigit &&
        y4.isDigit && m1.isDigit && m2.isDigit && d1.isDigit && d2.isDigit &&
        h1.isDigit && h2.isDigit && n1.isDigit && n2.isDigit &&
        s1.isDigit && s2.isDigit) then
      let y := ((digitVal y1 * 10 + digitVal y2) * 10 + digitVal y3) * 10 + digitVal y4
      let m := digitVal m1 * 10 + digitVal m2
      let dd := digitVal d1 * 10 + digitVal d2
      let h := digitVal h1 * 10 + digitVal h2
      let mi := digitVal n1 * 10 + digitVal n2
      let s := digitVal s1 * 10 + digitVal s2
      if 1 ≤ m ∧ m ≤ 12 ∧ 1 ≤ dd ∧ dd ≤ 31 ∧ h ≤ 23 ∧ mi ≤ 59 ∧ s ≤ 59 then
        some ((((y * 13 + m) * 32 + dd) * 24 * 3600 + (h * 60 + mi) * 60 + s))
      else none
    else none
  | _ => none

/-- `datetime.fromisoformat` on a string. -/
def fromisoformat (s : String) : Option ℕ := fromisoChars s.data

/-- Python truthiness of an optional query string: `if start:` is false both
for an absent parameter and for the empty string. -/
def truthyStr : Option String → Option String
  | some s => if s = "" then none else some s
  | none => none

/-- Parse one (truthy) bound with `datetime.fromisoformat`; a parse failure
is an uncaught `ValueError`, i.e. an HTTP 500. -/
def parseOpt : Option String → Except ApiError (Option ℕ)
  | none => .ok none
  | some s =>
    match fromisoformat s with
    | some t => .ok (some t)
    | none => .error .internal

/-- The shared `start`/`end` parsing block of `list_sales` (lines 244-251)
and `stats_top` (lines 272-279): `start` is parsed first. -/
def parse_range (start end_ : Option String) :
    Except ApiError (Option ℕ × Option ℕ) :=
  match parseOpt (truthyStr start) with
  | .error e => .error e
  | .ok g =>
    match parseOpt (truthyStr end_) with
    | .error e => .error e
    | .ok l => .ok (g, l)

/-- The `created_at` filter `{"$gte": g, "$lte": l}` on a sale. -/
def saleInRange (g l : Option ℕ) (s : Sale) : Bool :=
  (match g with | none => true | some t => decide (t ≤ s.created_at)) &&
  (match l with | none => true | some t => decide (s.created_at ≤ t))

/-- Insert a sale into a list kept in descending `created_at` order. -/
def insertSaleDesc (s : Sale) : List Sale → List Sale
  | [] => [s]
  | t :: ts =>
    if t.created_at < s.created_at then s :: t :: ts else t :: insertSaleDesc s ts

/-- `.sort("created_at", -1)`: sort descending by creation time. -/
def sortSalesDesc (l : List Sale) : List Sale :=
  l.foldr insertSaleDesc []

/-- `GET /api/sales` (`list_sales`, lines 240-253).  FastAPI's
`Query(50, ge=1, le=500)` supplies the default 50 and rejects an
out-of-range value with a 422 before the handler runs. -/
def list_sales (st : Store) (limit : Option ℤ) (start end_ : Option String) :
    Except ApiError (List Sale) :=
  match limit with
  | some l =>
    if 1 ≤ l ∧ l ≤ 500 then
      match parse_range start end_ with
      | .error e => .error e
      | .ok (g, lt) =>
        .ok ((sortSalesDesc (st.sales.filter (saleInRange g lt))).take l.toNat)
    else .error .unprocessable
  | none =>
    match parse_range start end_ with
    | .error e => .error e
    | .ok (g, lt) =>
      .ok ((sortSalesDesc (st.sales.filter (saleInRange g lt))).take (50 : ℕ))

/-- One entry of the `stats_top` response. -/
structure StatEntry where
  item_id : ℕ
  name : Option String
  quantity : ℤ
  price : ℚ
  category : Option String
deriving DecidableEq

/-- `$group`: accumulate a quantity for an item id into the running totals. -/
def addQty (id : ℕ) (q : ℤ) : List (ℕ × ℤ) → List (ℕ × ℤ)
  | [] => [(id, q)]
  | (k, v) :: rest =>
    if k = id then (k, v + q) :: rest else (k, v) :: addQty id q rest

/-- Insert into a list of `(item, quantity)` pairs kept in descending
quantity order (`$sort: {quantity: -1}`). -/
def insertQtyDesc (p : ℕ × ℤ) : List (ℕ × ℤ) → List (ℕ × ℤ)
  | [] => [p]
  | t :: ts => if t.2 < p.2 then p :: t :: ts else t :: insertQtyDesc p ts

/-- Sort the aggregated pairs descending by quantity. -/
def sortQtyDesc (l : List (ℕ × ℤ)) : List (ℕ × ℤ) :=
  l.foldr insertQtyDesc []

/-- The `build(entry)` helper of `stats_top` (lines 301-309). -/
def buildStat (st : Store) (p : ℕ × ℤ) : StatEntry :=
  match lookupItem p.1 st.items with
  | some it =>
    { item_id := p.1, name := some it.name, quantity := p.2,
      price := it.price, category := it.category }
  | none =>
    { item_id := p.1, name := none, quantity := p.2, price := 0,
      category := none }

/-- `GET /api/stats/top` (`stats_top`, lines 267-311): aggregate quantity
sold per item over the matching sales, return best and worst seller. -/
def stats_top (st : Store) (start end_ : Option String) :
    Except ApiError (Option StatEntry × Option StatEntry) :=
  match parse_range start end_ with
  | .error e => .error e
  | .ok (g, l) =>
    let matching := st.sales.filter (saleInRange g l)
    let pairs := matching.foldl
      (fun acc sale => sale.items.foldl (fun a li => addQty li.item_id li.quantity a) acc)
      ([] : List (ℕ × ℤ))
    match h : sortQtyDesc pairs with
    | [] => .ok (none, none)
    | hd :: tl =>
      .ok (some (buildStat st hd),
           some (buildStat st ((hd :: tl).getLast (by simp))))

/-! ### Helper lemmas -/

theorem roundHalfEven_intCast (n : ℤ) : roundHalfEven (n : ℚ) = n := by
  norm_num [roundHalfEven, Int.floor_intCast]

theorem round2_zero : round2 0 = 0 := by
  have h : roundHalfEven ((0 : ℚ)) = 0 := by
    have h0 : ((0 : ℚ)) = ((0 : ℤ) : ℚ) := by norm_num
    rw [h0, roundHalfEven_intCast]
  simp [round2, h]

theorem roundHalfEven_nonneg {q : ℚ} (h : 0 ≤ q) : 0 ≤ roundHalfEven q := by
  have hf : (0 : ℤ) ≤ ⌊q⌋ := Int.floor_nonneg.mpr h
  simp only [roundHalfEven]
  split_ifs <;> omega

theorem round2_nonneg {q : ℚ} (h : 0 ≤ q) : 0 ≤ round2 q := by
  have h1 : (0 : ℚ) ≤ (roundHalfEven (q * 100) : ℚ) := by
    exact_mod_cast roundHalfEven_nonneg (by positivity)
  exact div_nonneg h1 (by norm_num)

theorem round2_idem (q : ℚ) : round2 (round2 q) = round2 q := by
  unfold round2
  rw [div_mul_cancel₀ _ (by norm_num : (100 : ℚ) ≠ 0), roundHalfEven_intCast]

theorem foldl_add_eq_sum {α : Type} (f : α → ℚ) :
    ∀ (l : List α) (a : ℚ), l.foldl (fun x y => x + f y) a = a + (l.map f).sum
  | [], a => by simp
  | x :: xs, a => by
    simp only [List.foldl_cons, List.map_cons, List.sum_cons]
    rw [foldl_add_eq_sum f xs (a + f x)]
    ring

theorem sumLineTotals_eq (ls : List LineItem) :
    sumLineTotals ls = (ls.map (fun li => li.line_total)).sum := by
  simpa using foldl_add_eq_sum (fun li : LineItem => li.line_total) ls 0

/-- The line total a request line would contribute, read off the store. -/
def lineTotalOf (st : Store) (l : SaleItemIn) : ℚ :=
  match findActiveItem st l.item_id with
  | some it => it.price * (l.quantity : ℚ)
  | none => 0

/-- The subtotal a request would produce (sum of its lines' totals). -/
def requestSubtotal (st : Store) (lines : List SaleItemIn) : ℚ :=
  (lines.map (lineTotalOf st)).sum

/-- The grand total `create_sale` computes for a request: subtotal plus the
(zero-rate, rounded) tax, rounded to two decimals. -/
def requestTotal (st : Store) (lines : List SaleItemIn) : ℚ :=
  round2 (requestSubtotal st lines +
    round2 (requestSubtotal st lines * 0))

theorem buildLines_ok_of_valid (st : Store) :
    ∀ lines : List SaleItemIn,
      (∀ l ∈ lines, ∃ it, findActiveItem st l.item_id = some it ∧
          l.quantity ≤ it.stock) →
      ∃ ls, buildLines st lines = .ok ls ∧
        sumLineTotals ls = requestSubtotal st lines
  | [], _ => ⟨[], rfl, by simp [sumLineTotals, requestSubtotal]⟩
  | l :: rest, h => by
    obtain ⟨it, hfind, hstock⟩ := h l (List.mem_cons_self l rest)
    obtain ⟨tl, htl, hsum⟩ :=
      buildLines_ok_of_valid st rest (fun x hx => h x (List.mem_cons_of_mem l hx))
    refine ⟨{ item_id := l.item_id, name := it.name, price := it.price,
              quantity := l.quantity,
              line_total := it.price * (l.quantity : ℚ) } :: tl, ?_, ?_⟩
    · simp only [buildLines, hfind, htl, if_neg (not_lt.mpr hstock)]
    · simp only [sumLineTotals_eq, List.map_cons, List.sum_cons]
      rw [← sumLineTotals_eq, hsum]
      simp only [requestSubtotal, List.map_cons, List.sum_cons, lineTotalOf, hfind]

theorem buildLines_ok_items (st : Store) :
    ∀ (lines : List SaleItemIn) (ls : List LineItem),
      buildLines st lines = .ok ls →
      ∀ li ∈ ls, ∃ it, findActiveItem st li.item_id = some it ∧
        li.price = it.price ∧ li.name = it.name ∧
        li.line_total = li.price * (li.quantity : ℚ)
  | [], ls, h => by
    simp only [buildLines] at h
    cases h
    intro li hli
    simp at hli
  | l :: rest, ls, h => by
    simp only [buildLines] at h
    split at h
    · exact Except.noConfusion h
    · rename_i doc hfind
      split at h
      · exact Except.noConfusion h
      · rename_i hs
        split at h
        · exact Except.noConfusion h
        · rename_i tl hrest
          cases h
          intro li hli
          rcases List.mem_cons.mp hli with hli | hli
          · subst hli
            exact ⟨doc, hfind, rfl, rfl, rfl⟩
          · exact buildLines_ok_items st rest tl hrest li hli

theorem buildLines_insufficient (st : Store) :
    ∀ lines : List SaleItemIn,
      (∀ l ∈ lines, ∃ it, findActiveItem st l.item_id = some it) →
      (∃ l ∈ lines, ∃ it, findActiveItem st l.item_id = some it ∧
          it.stock < l.quantity) →
      ∃ nm, buildLines st lines =
        .error (.badRequest ("Insufficient stock for " ++ nm))
  | [], _, hbad => by simp at hbad
  | l :: rest, hall, hbad => by
    obtain ⟨itm, hfind⟩ := hall l (List.mem_cons_self l rest)
    by_cases hs : itm.stock < l.quantity
    · exact ⟨itm.name, by simp only [buildLines, hfind, if_pos hs]⟩
    · have hbadr : ∃ x ∈ rest, ∃ it, findActiveItem st x.item_id = some it ∧
          it.stock < x.quantity := by
        obtain ⟨x, hx, it', hfind', hs'⟩ := hbad
        rcases List.mem_cons.mp hx with hx | hx
        · subst hx
          rw [hfind] at hfind'
          cases hfind'
          exact absurd hs' hs
        · exact ⟨x, hx, it', hfind', hs'⟩
      obtain ⟨nm, herr⟩ := buildLines_insufficient st rest
        (fun x hx => hall x (List.mem_cons_of_mem l hx)) hbadr
      exact ⟨nm, by simp only [buildLines, hfind, if_neg hs, herr]⟩

theorem buildLines_unavailable (st : Store) :
    ∀ lines : List SaleItemIn,
      (∀ l ∈ lines, ∀ it, findActiveItem st l.item_id = some it →
          l.quantity ≤ it.stock) →
      (∃ l ∈ lines, findActiveItem st l.item_id = none) →
      ∃ id : ℕ, buildLines st lines =
        .error (.badRequest ("Item not available: " ++ toString id))
  | [], _, hbad => by simp at hbad
  | l :: rest, hall, hbad => by
    cases hfind : findActiveItem st l.item_id with
    | none => exact ⟨l.item_id, by simp only [buildLines, hfind]⟩
    | some itm =>
      have hs : ¬ itm.stock < l.quantity :=
        not_lt.mpr (hall l (List.mem_cons_self l rest) itm hfind)
      have hbadr : ∃ x ∈ rest, findActiveItem st x.item_id = none := by
        obtain ⟨x, hx, hnone⟩ := hbad
        rcases List.mem_cons.mp hx with hx | hx
        · subst hx; rw [hfind] at hnone; cases hnone
        · exact ⟨x, hx, hnone⟩
      obtain ⟨id, herr⟩ := buildLines_unavailable st rest
        (fun x hx => hall x (List.mem_cons_of_mem l hx)) hbadr
      exact ⟨id, by simp only [buildLines, hfind, if_neg hs, herr]⟩

theorem applyDecrements_sales (now : ℕ) :
    ∀ (ls : List LineItem) (st : Store),
      (applyDecrements now st ls).sales = st.sales
  | [], _ => rfl
  | li :: tl, st => by
    simp only [applyDecrements, List.foldl_cons]
    exact applyDecrements_sales now tl _

theorem applyDecrements_counter (now : ℕ) :
    ∀ (ls : List LineItem) (st : Store),
      (applyDecrements now st ls).counter = st.counter
  | [], _ => rfl
  | li :: tl, st => by
    simp only [applyDecrements, List.foldl_cons]
    exact applyDecrements_counter now tl _

theorem create_sale_ok (d : DTime) (now : ℕ) (st : Store) (req : SaleIn)
    (sale : Sale) (st' : Store)
    (h : create_sale d now st req = (.ok sale, st')) :
    ∃ ls, buildLines st req.items = .ok ls ∧
      ¬ req.paid < round2 (sumLineTotals ls + round2 (sumLineTotals ls * 0)) ∧
      sale = { items := ls, cashier := req.cashier, note := req.note,
               subtotal := round2 (sumLineTotals ls),
               tax := round2 (sumLineTotals ls * 0),
               total := round2 (sumLineTotals ls + round2 (sumLineTotals ls * 0)),
               paid := req.paid,
               change := round2 (req.paid -
                 round2 (sumLineTotals ls + round2 (sumLineTotals ls * 0))),
               receipt_no := (generate_receipt_no d st).1,
               created_at := now } ∧
      st' = applyDecrements now
        { (generate_receipt_no d st).2 with
          sales := (generate_receipt_no d st).2.sales ++ [sale] } ls := by
  simp only [create_sale] at h
  split at h
  · simp at h
  · split at h
    · simp at h
    · rename_i ls hls
      split at h
      · simp at h
      · rename_i hpaid
        simp only [Prod.mk.injEq, Except.ok.injEq] at h
        exact ⟨ls, hls, hpaid, h.1.symm, by rw [← h.1, ← h.2]⟩

/-- Example inventory: one active item "Coffee", price 3, stock 10. -/
def coffee : Item :=
  { name := "Coffee", price := 3, sku := none, stock := 10, category := none,
    is_active := true, created_at := 0, updated_at := 0 }

/-- A store holding just the coffee item, no sales, fresh counter. -/
def storeA : Store := { items := [(1, coffee)], sales := [], counter := none }

/-- A fixed clock instant for the example runs. -/
def d0 : DTime :=
  { year := 2025, month := 6, day := 1, hour := 12, minute := 0, second := 0 }

/-- Sale request: two coffees, paying 10. -/
def reqA : SaleIn := { items := [⟨1, 2⟩], cashier := none, note := none, paid := 10 }

/-- The example run used by several witnesses. -/
def runA : Except ApiError Sale × Store := create_sale d0 7 storeA reqA

/-- The sale produced by the example run. -/
def saleA : Sale :=
  match runA.1 with
  | .ok s => s
  | .error _ =>
    { items := [], cashier := none, note := none, subtotal := 0, tax := 0,
      total := 0, paid := 0, change := 0, receipt_no := "", created_at := 0 }

/-- C1 (amended): for every Sale persisted by `create_sale`, the stored
fields satisfy `total = round2 (subtotal + tax)`,
`change = round2 (paid - total)` with `change ≥ 0`, every line item's
`line_total = price * quantity`, and the stored `subtotal` equals the sum
of the line totals **rounded to two decimal places** (the code stores
`round(subtotal, 2)`, so the unrounded sum differs whenever it has more
than two decimals). -/
theorem C1_sale_invariants (d : DTime) (now : ℕ) (st : Store) (req : SaleIn)
    (sale : Sale) (st' : Store)
    (h : create_sale d now st req = (.ok sale, st')) :
    sale.total = round2 (sale.subtotal + sale.tax) ∧
    sale.change = round2 (sale.paid - sale.total) ∧
    0 ≤ sale.change ∧
    sale.items.all
      (fun li => decide (li.line_total = li.price * (li.quantity : ℚ))) = true ∧
    sale.subtotal = round2 (sumLineTotals sale.items) ∧
    sale ∈ st'.sales := by
  obtain ⟨ls, hls, hpaid, hsale, hst⟩ := create_sale_ok d now st req sale st' h
  subst hsale
  subst hst
  refine ⟨?_, ?_, ?_, ?_, ?_, ?_⟩
  · simp [mul_zero, round2_zero, add_zero, round2_idem]
  · rfl
  · exact round2_nonneg (sub_nonneg.mpr (not_lt.mp hpaid))
  · simp only [List.all_eq_true]
    intro li hli
    obtain ⟨it, _, _, _, hlt⟩ := buildLines_ok_items st req.items ls hls li hli
    exact decide_eq_true hlt
  · rfl
  · rw [applyDecrements_sales]
    exact List.mem_append_right _ (List.mem_singleton_self _)

/-- Witness for C1 at the concrete coffee-sale run. -/
theorem C1_sale_invariants_witness :
    saleA.total = round2 (saleA.subtotal + saleA.tax) ∧
    saleA.change = round2 (saleA.paid - saleA.total) ∧
    0 ≤ saleA.change ∧
    saleA.items.all
      (fun li => decide (li.line_total = li.price * (li.quantity : ℚ))) = true ∧
    saleA.subtotal = round2 (sumLineTotals saleA.items) ∧
    saleA ∈ runA.2.sales :=
  C1_sale_invariants d0 7 storeA reqA saleA runA.2 (by with_unfolding_all decide)

/-- Inventory with a sub-cent price: "Mint", price 0.001, in stock. -/
def storeMint : Store :=
  { items := [(1, { name := "Mint", price := 1/1000, sku := none, stock := 5,
                    category := none, is_active := true, created_at := 0,
                    updated_at := 0 })],
    sales := [], counter := none }

/-- One mint, paying 1. -/
def reqMint : SaleIn := { items := [⟨1, 1⟩], cashier := none, note := none, paid := 1 }

/-- The run that refutes the unrounded-subtotal reading of C1. -/
def runMint : Except ApiError Sale × Store := create_sale d0 7 storeMint reqMint

/-- The sale persisted by the mint run. -/
def saleMint : Sale :=
  match runMint.1 with
  | .ok s => s
  | .error _ =>
    { items := [], cashier := none, note := none, subtotal := 0, tax := 0,
      total := 0, paid := 0, change := 0, receipt_no := "", created_at := 0 }

/-- C1 counterexample: a sale of one item priced 0.001 succeeds, and its
stored subtotal (`round(0.001, 2) = 0`) differs from the exact sum of its
line totals (`0.001`), so "stored subtotal equals the sum of the line
totals" is false as stated. -/
theorem C1_subtotal_counterexample :
    runMint.1 = .ok saleMint ∧
    saleMint ∈ runMint.2.sales ∧
    saleMint.subtotal ≠ sumLineTotals saleMint.items := by
  with_unfolding_all decide

/-- C2: if every requested line refers to an existing, active item and some
line's quantity exceeds that item's stock, `create_sale` fails with the
`Insufficient stock` 400 error and returns the store unchanged — no stock
field is modified. -/
theorem C2_insufficient_stock (d : DTime) (now : ℕ) (st : Store) (req : SaleIn)
    (h1 : ∀ l ∈ req.items, ∃ it, findActiveItem st l.item_id = some it)
    (h2 : ∃ l ∈ req.items, ∃ it, findActiveItem st l.item_id = some it ∧
        it.stock < l.quantity) :
    ∃ nm : String, create_sale d now st req =
      (.error (.badRequest ("Insufficient stock for " ++ nm)), st) := by
  have hne : req.items ≠ [] := by
    obtain ⟨l, hl, _⟩ := h2
    intro hcon
    rw [hcon] at hl
    simp at hl
  obtain ⟨nm, herr⟩ := buildLines_insufficient st req.items h1 h2
  exact ⟨nm, by simp only [create_sale, if_neg hne, herr]⟩

/-- Low-stock inventory: one coffee in stock. -/
def storeLow : Store :=
  { items := [(1, { coffee with stock := 1 })], sales := [], counter := none }

/-- Witness for C2: requesting two coffees with one in stock. -/
theorem C2_insufficient_stock_witness :
    ∃ nm : String, create_sale d0 7 storeLow reqA =
      (.error (.badRequest ("Insufficient stock for " ++ nm)), storeLow) :=
  C2_insufficient_stock d0 7 storeLow reqA
    (by
      intro l hl
      simp only [reqA, List.mem_singleton] at hl
      subst hl
      exact ⟨{ coffee with stock := 1 }, by with_unfolding_all decide⟩)
    ⟨⟨1, 2⟩, by decide, { coffee with stock := 1 },
      by with_unfolding_all decide, by decide⟩

/-- C4: for a nonempty request whose lines all validate (every item exists,
is active, and has sufficient stock) but whose paid amount is below the
computed total, `create_sale` fails with the `InsufficientPayment` 400
error and returns the store unchanged — no Sale is persisted and no stock
changes. -/
theorem C4_insufficient_payment (d : DTime) (now : ℕ) (st : Store) (req : SaleIn)
    (h1 : req.items ≠ [])
    (h2 : ∀ l ∈ req.items, ∃ it, findActiveItem st l.item_id = some it ∧
        l.quantity ≤ it.stock)
    (h3 : req.paid < requestTotal st req.items) :
    create_sale d now st req =
      (.error (.badRequest "Paid amount is less than total"), st) := by
  obtain ⟨ls, hls, hsum⟩ := buildLines_ok_of_valid st req.items h2
  have h3' : req.paid < round2 (sumLineTotals ls + round2 (sumLineTotals ls * 0)) := by
    rw [hsum]
    exact h3
  simp only [create_sale, if_neg h1, hls, if_pos h3']

/-- Underpaying request: two coffees, paying 5 (< total 6). -/
def reqPoor : SaleIn := { items := [⟨1, 2⟩], cashier := none, note := none, paid := 5 }

/-- Witness for C4: paying 5 for a total of 6. -/
theorem C4_insufficient_payment_witness :
    create_sale d0 7 storeA reqPoor =
      (.error (.badRequest "Paid amount is less than total"), storeA) :=
  C4_insufficient_payment d0 7 storeA reqPoor (by decide)
    (by
      intro l hl
      simp only [reqPoor, List.mem_singleton] at hl
      subst hl
      exact ⟨coffee, by with_unfolding_all decide, by decide⟩)
    (by with_unfolding_all decide)

/-- C6: (a) if every available line has sufficient stock and some line
refers to a missing or inactive item, `create_sale` fails with the
`Item not available` 400 error — regardless of that item's stock — and
returns the store unchanged; (b) whenever `create_sale` succeeds, every
line item of the persisted Sale refers to an item that existed and was
active in the pre-state, so an inactive item never appears in a persisted
Sale. -/
theorem C6_item_unavailable (d : DTime) (now : ℕ) (st : Store) (req : SaleIn) :
    ((∀ l ∈ req.items, ∀ it, findActiveItem st l.item_id = some it →
        l.quantity ≤ it.stock) →
      (∃ l ∈ req.items, findActiveItem st l.item_id = none) →
      ∃ id : ℕ, create_sale d now st req =
        (.error (.badRequest ("Item not available: " ++ toString id)), st)) ∧
    (∀ sale st', create_sale d now st req = (.ok sale, st') →
      sale.items.all (fun li => (findActiveItem st li.item_id).isSome) = true) := by
  constructor
  · intro h1 h2
    have hne : req.items ≠ [] := by
      obtain ⟨l, hl, _⟩ := h2
      intro hcon
      rw [hcon] at hl
      simp at hl
    obtain ⟨id, herr⟩ := buildLines_unavailable st req.items h1 h2
    exact ⟨id, by simp only [create_sale, if_neg hne, herr]⟩
  · intro sale st' h
    obtain ⟨ls, hls, _, hsale, _⟩ := create_sale_ok d now st req sale st' h
    subst hsale
    simp only [List.all_eq_true]
    intro li hli
    obtain ⟨it, hfind, _⟩ := buildLines_ok_items st req.items ls hls li hli
    simp [hfind]

/-- Inventory with an inactive item: "Juice" exists, has plenty of stock,
but `is_active = false`. -/
def storeInactive : Store :=
  { items := [(1, coffee),
              (2, { name := "Juice", price := 2, sku := none, stock := 50,
                    category := none, is_active := false, created_at := 0,
                    updated_at := 0 })],
    sales := [], counter := none }

/-- Request touching the inactive item. -/
def reqInactive : SaleIn :=
  { items := [⟨1, 1⟩, ⟨2, 1⟩], cashier := none, note := none, paid := 10 }

/-- Witness for C6: the inactive-item request fails with `Item not
available` and leaves the store unchanged; the successful coffee run's
persisted sale references only items that were active. -/
theorem C6_item_unavailable_witness :
    (∃ id : ℕ, create_sale d0 7 storeInactive reqInactive =
      (.error (.badRequest ("Item not available: " ++ toString id)), storeInactive)) ∧
    saleA.items.all (fun li => (findActiveItem storeA li.item_id).isSome) = true :=
  ⟨(C6_item_unavailable d0 7 storeInactive reqInactive).1
      (by
        intro l hl it hit
        simp only [reqInactive] at hl
        rcases List.mem_cons.mp hl with hl | hl
        · subst hl
          rw [show findActiveItem storeInactive 1 = some coffee from by
                with_unfolding_all decide] at hit
          cases hit
          decide
        · rw [List.mem_singleton] at hl
          subst hl
          rw [show findActiveItem storeInactive 2 = none from by
                with_unfolding_all decide] at hit
          cases hit)
      ⟨⟨2, 1⟩, by decide, by with_unfolding_all decide⟩,
    (C6_item_unavailable d0 7 storeA reqA).2 saleA runA.2
      (by with_unfolding_all decide)⟩

/-- One `find_one_and_update` allocation per call: the values returned by
`n` successive allocations starting from any store state. -/
def allocs : ℕ → Store → List ℕ × Store
  | 0, st => ([], st)
  | n + 1, st =>
    ((next_seq st).1 :: (allocs n (next_seq st).2).1, (allocs n (next_seq st).2).2)

theorem allocs_values : ∀ (n : ℕ) (st : Store),
    (allocs n st).1 = (List.range n).map (fun i => st.counter.getD 0 + 1 + i)
  | 0, _ => by simp [allocs]
  | n + 1, st => by
    simp only [allocs]
    rw [allocs_values n]
    rw [List.range_succ_eq_map]
    simp only [List.map_cons, List.map_map, List.cons.injEq]
    refine ⟨by simp [next_seq], ?_⟩
    apply List.map_congr_left
    intro i _
    simp only [Function.comp_apply, next_seq, Option.getD_some]
    omega

/-- C3: the receipt sequence counter starts effectively at 0 (the first
allocation on a fresh store returns 1), and across any number of
successive allocations the returned values are strictly increasing, hence
pairwise distinct — no value is ever returned twice. -/
theorem C3_sequence_counter (st : Store) (n : ℕ) :
    (st.counter = none → (next_seq st).1 = 1) ∧
    List.Pairwise (· < ·) (allocs n st).1 ∧
    (allocs n st).1.Nodup := by
  have hp : List.Pairwise (· < ·) (allocs n st).1 := by
    rw [allocs_values]
    refine List.Pairwise.map _ ?_ (List.pairwise_lt_range n)
    intro a b hab
    omega
  refine ⟨?_, hp, hp.imp ne_of_lt⟩
  intro h
  simp [next_seq, h]

/-- Witness for C3: a fresh store, three allocations. -/
theorem C3_sequence_counter_witness :
    (next_seq { items := [], sales := [], counter := none }).1 = 1 ∧
    List.Pairwise (· < ·)
      (allocs 3 { items := [], sales := [], counter := none }).1 ∧
    (allocs 3 { items := [], sales := [], counter := none }).1.Nodup :=
  ⟨(C3_sequence_counter { items := [], sales := [], counter := none } 3).1 rfl,
   (C3_sequence_counter { items := [], sales := [], counter := none } 3).2.1,
   (C3_sequence_counter { items := [], sales := [], counter := none } 3).2.2⟩

theorem decCharsAux_length_le :
    ∀ (fuel n k : ℕ), n < fuel → 1 ≤ k → n < 10 ^ k →
      (decCharsAux fuel n).length ≤ k
  | 0, n, k, hf, _, _ => by omega
  | fuel + 1, n, k, hf, hk, hnk => by
    simp only [decCharsAux]
    split
    · simpa using hk
    · rename_i hge
      have hk2 : 2 ≤ k := by
        rcases Nat.lt_or_ge k 2 with hlt | hge2
        · have hk1 : k = 1 := by omega
          subst hk1
          simp [pow_one] at hnk
          omega
        · exact hge2
      have hpow : 10 ^ (k - 1) * 10 = 10 ^ k := by
        rw [← pow_succ]
        congr 1
        omega
      have hdiv : n / 10 < 10 ^ (k - 1) := by
        rw [Nat.div_lt_iff_lt_mul (by norm_num)]
        omega
      have hfuel : n / 10 < fuel := by
        have h1 : n / 10 < n := Nat.div_lt_self (by omega) (by norm_num)
        omega
      have ih := decCharsAux_length_le fuel (n / 10) (k - 1) hfuel (by omega) hdiv
      simp only [List.length_append, List.length_cons, List.length_nil]
      omega

theorem decChars_length_le {n k : ℕ} (hk : 1 ≤ k) (h : n < 10 ^ k) :
    (decChars n).length ≤ k :=
  decCharsAux_length_le (n + 1) n k (Nat.lt_succ_self n) hk h

theorem decChars_length_le4 {n : ℕ} (h : n ≤ 9999) : (decChars n).length ≤ 4 := by
  have h4 : (10 : ℕ) ^ 4 = 10000 := by norm_num
  exact decChars_length_le (by norm_num) (by omega)

theorem decChars_length_le2 {n : ℕ} (h : n ≤ 99) : (decChars n).length ≤ 2 := by
  have h2 : (10 : ℕ) ^ 2 = 100 := by norm_num
  exact decChars_length_le (by norm_num) (by omega)

theorem digitChar_isDigit {n : ℕ} (h : n < 10) : (Nat.digitChar n).isDigit = true := by
  interval_cases n <;> decide

theorem decCharsAux_digits :
    ∀ (fuel n : ℕ), ∀ c ∈ decCharsAux fuel n, c.isDigit = true
  | 0, n => by simp [decCharsAux]
  | fuel + 1, n => by
    intro c hc
    simp only [decCharsAux] at hc
    split at hc
    · rename_i h10
      simp only [List.mem_singleton] at hc
      subst hc
      exact digitChar_isDigit h10
    · rcases List.mem_append.mp hc with hc | hc
      · exact decCharsAux_digits fuel (n / 10) c hc
      · simp only [List.mem_singleton] at hc
        subst hc
        exact digitChar_isDigit (Nat.mod_lt n (by norm_num))

theorem decChars_digits (n : ℕ) : ∀ c ∈ decChars n, c.isDigit = true :=
  decCharsAux_digits (n + 1) n

theorem padZeros_data (w n : ℕ) :
    (padZeros w n).data =
      List.replicate (w - (decChars n).length) '0' ++ decChars n := rfl

theorem padZeros_length {w n : ℕ} (h : (decChars n).length ≤ w) :
    (padZeros w n).length = w := by
  show (List.replicate (w - (decChars n).length) '0' ++ decChars n).length = w
  simp only [List.length_append, List.length_replicate]
  omega

theorem padZeros_digits (w n : ℕ) : ∀ c ∈ (padZeros w n).data, c.isDigit = true := by
  rw [padZeros_data]
  intro c hc
  rcases List.mem_append.mp hc with hc | hc
  · rw [List.eq_of_mem_replicate hc]
    decide
  · exact decChars_digits n c hc

theorem string_data_append (s t : String) : (s ++ t).data = s.data ++ t.data := rfl

theorem strftime_length (d : DTime) (hy : d.year ≤ 9999) (hm : d.month ≤ 99)
    (hd : d.day ≤ 99) (hh : d.hour ≤ 99) (hmin : d.minute ≤ 99)
    (hs : d.second ≤ 99) : (strftime_YmdHMS d).length = 14 := by
  simp only [strftime_YmdHMS, String.length_append]
  rw [padZeros_length (decChars_length_le4 hy),
      padZeros_length (decChars_length_le2 hm),
      padZeros_length (decChars_length_le2 hd),
      padZeros_length (decChars_length_le2 hh),
      padZeros_length (decChars_length_le2 hmin),
      padZeros_length (decChars_length_le2 hs)]

theorem strftime_digits (d : DTime) :
    ∀ c ∈ (strftime_YmdHMS d).data, c.isDigit = true := by
  intro c hc
  simp only [strftime_YmdHMS, string_data_append, List.mem_append] at hc
  rcases hc with ((((hc | hc) | hc) | hc) | hc) | hc <;>
    exact padZeros_digits _ _ c hc

/-- The receipt-number format claimed by the spec sentence: the character
`R`, immediately followed by a 14-digit timestamp, immediately followed
by the 4-digit zero-padded sequence — i.e. 19 characters, `R` then 18
decimal digits. -/
def claimedReceiptFormat (s : String) : Bool :=
  (s.length == 19) &&
    (match s.data with
     | c :: rest => (c == 'R') && rest.all Char.isDigit
     | [] => false)

/-- A store whose receipt counter currently holds 41. -/
def stSeq41 : Store := { items := [], sales := [], counter := some 41 }

/-- C5 counterexample: the receipt produced for sequence value 42 at
2025-06-01 12:00:00 UTC is `R20250601120000-0042` — the code inserts a
hyphen between the timestamp and the sequence, so the receipt does not
match the claimed `R<14-digit timestamp><4-digit sequence>` shape. -/
theorem C5_receipt_counterexample :
    (generate_receipt_no d0 stSeq41).1 = "R20250601120000-0042" ∧
    claimedReceiptFormat (generate_receipt_no d0 stSeq41).1 = false := by
  decide

/-- C5 (amended): every receipt number has the exact format
`R<UTC timestamp YYYYMMDDHHMMSS>-<4-digit zero-padded sequence>` — with a
hyphen separating the 14-digit timestamp from the 4-digit sequence
(for in-range dates and sequence values up to 9999). -/
theorem C5_receipt_format (d : DTime) (st : Store)
    (hy : d.year ≤ 9999) (hm : d.month ≤ 99) (hd : d.day ≤ 99)
    (hh : d.hour ≤ 99) (hmin : d.minute ≤ 99) (hs : d.second ≤ 99)
    (hseq : (next_seq st).1 ≤ 9999) :
    (generate_receipt_no d st).1 =
      "R" ++ strftime_YmdHMS d ++ "-" ++ padZeros 4 (next_seq st).1 ∧
    (strftime_YmdHMS d).length = 14 ∧
    (strftime_YmdHMS d).data.all Char.isDigit = true ∧
    (padZeros 4 (next_seq st).1).length = 4 ∧
    (padZeros 4 (next_seq st).1).data.all Char.isDigit = true := by
  refine ⟨rfl, strftime_length d hy hm hd hh hmin hs, ?_, ?_, ?_⟩
  · exact List.all_eq_true.mpr (strftime_digits d)
  · exact padZeros_length (decChars_length_le4 hseq)
  · exact List.all_eq_true.mpr (padZeros_digits 4 (next_seq st).1)

/-- Witness for C5 at the concrete clock and counter state. -/
theorem C5_receipt_format_witness :
    (generate_receipt_no d0 stSeq41).1 =
      "R" ++ strftime_YmdHMS d0 ++ "-" ++ padZeros 4 (next_seq stSeq41).1 ∧
    (strftime_YmdHMS d0).length = 14 ∧
    (strftime_YmdHMS d0).data.all Char.isDigit = true ∧
    (padZeros 4 (next_seq stSeq41).1).length = 4 ∧
    (padZeros 4 (next_seq stSeq41).1).data.all Char.isDigit = true :=
  C5_receipt_format d0 stSeq41 (by decide) (by decide) (by decide) (by decide)
    (by decide) (by decide) (by decide)

/-- The item that `POST /api/items` with a negative price produces. -/
def ghostItem : Item :=
  { name := "Ghost", price := -1, sku := none, stock := 3, category := none,
    is_active := true, created_at := 0, updated_at := 0 }

/-- C7 evidence: `create_item` accepts a payload with `price = -1` — the
endpoint's `ItemIn` model (main.py line 87) has no `ge=0` constraint, unlike
the documented schema (`schemas.py` line 19, `price: ge=0`) — and stores the
item with the negative price instead of failing with a 400 ValidationError. -/
theorem C7_negative_price_accepted :
    (create_item 0 5 storeA
      { name := "Ghost", price := -1, sku := none, stock := 3,
        category := none, is_active := true }).1 = .ok ghostItem ∧
    lookupItem 5 ((create_item 0 5 storeA
      { name := "Ghost", price := -1, sku := none, stock := 3,
        category := none, is_active := true }).2).items = some ghostItem ∧
    ghostItem.price < 0 := by
  with_unfolding_all decide

theorem lookupItem_updateFirst_self (id : ℕ) (f : Item → Item) :
    ∀ (l : List (ℕ × Item)) (it : Item), lookupItem id l = some it →
      lookupItem id (updateFirst id f l) = some (f it)
  | [], it, h => by simp [lookupItem] at h
  | (k, x) :: rest, it, h => by
    by_cases hk : k = id
    · simp only [lookupItem, if_pos hk] at h
      cases h
      simp only [updateFirst, if_pos hk, lookupItem]
    · simp only [lookupItem, if_neg hk] at h
      simp only [updateFirst, if_neg hk, lookupItem]
      exact lookupItem_updateFirst_self id f rest it h

theorem lookupItem_updateFirst_other (id id2 : ℕ) (f : Item → Item)
    (hne : id2 ≠ id) :
    ∀ l : List (ℕ × Item),
      lookupItem id2 (updateFirst id f l) = lookupItem id2 l
  | [] => rfl
  | (k, x) :: rest => by
    by_cases hk : k = id
    · have hk2 : ¬ (k = id2) := by
        rw [hk]
        exact fun hcon => hne hcon.symm
      simp only [updateFirst, if_pos hk, lookupItem, if_neg hk2]
    · simp only [updateFirst, if_neg hk, lookupItem]
      by_cases hk2 : k = id2
      · rw [if_pos hk2, if_pos hk2]
      · rw [if_neg hk2, if_neg hk2]
        exact lookupItem_updateFirst_other id id2 f hne rest

/-- C9: updating an existing item merges exactly the supplied (non-null)
fields — each field of the stored item is the patch value when supplied and
the previous value when absent — refreshes `updated_at`, preserves
`created_at`, leaves every other item untouched, and returns the full
updated item. -/
theorem C9_partial_update (now : ℕ) (st : Store) (id id2 : ℕ)
    (p : ItemUpdate) (it : Item) (h : lookupItem id st.items = some it) :
    (update_item now st id p).1 = .ok (applyPatch now p it) ∧
    lookupItem id (update_item now st id p).2.items = some (applyPatch now p it) ∧
    (applyPatch now p it).name = p.name.getD it.name ∧
    (applyPatch now p it).price = p.price.getD it.price ∧
    (applyPatch now p it).sku =
      (match p.sku with | some s => some s | none => it.sku) ∧
    (applyPatch now p it).stock = p.stock.getD it.stock ∧
    (applyPatch now p it).category =
      (match p.category with | some c => some c | none => it.category) ∧
    (applyPatch now p it).is_active = p.is_active.getD it.is_active ∧
    (applyPatch now p it).created_at = it.created_at ∧
    (applyPatch now p it).updated_at = now ∧
    (id2 ≠ id →
      lookupItem id2 (update_item now st id p).2.items =
        lookupItem id2 st.items) := by
  have hself := lookupItem_updateFirst_self id (applyPatch now p) st.items it h
  refine ⟨?_, ?_, rfl, rfl, rfl, rfl, rfl, rfl, rfl, rfl, ?_⟩
  · simp only [update_item, h, hself]
  · simp only [update_item, h, hself]
  · intro hne
    simp only [update_item, h, hself]
    exact lookupItem_updateFirst_other id id2 (applyPatch now p) hne st.items

/-- A patch touching price and stock only. -/
def patchA : ItemUpdate :=
  { name := none, price := some (7/2), sku := none, stock := some 4,
    category := none, is_active := none }

/-- Witness for C9: patching coffee's price and stock in `storeA`, with
item 2 (absent) unchanged. -/
theorem C9_partial_update_witness :
    (update_item 9 storeA 1 patchA).1 = .ok (applyPatch 9 patchA coffee) ∧
    lookupItem 1 (update_item 9 storeA 1 patchA).2.items =
      some (applyPatch 9 patchA coffee) ∧
    (applyPatch 9 patchA coffee).name = patchA.name.getD coffee.name ∧
    (applyPatch 9 patchA coffee).price = patchA.price.getD coffee.price ∧
    (applyPatch 9 patchA coffee).sku =
      (match patchA.sku with | some s => some s | none => coffee.sku) ∧
    (applyPatch 9 patchA coffee).stock = patchA.stock.getD coffee.stock ∧
    (applyPatch 9 patchA coffee).category =
      (match patchA.category with | some c => some c | none => coffee.category) ∧
    (applyPatch 9 patchA coffee).is_active =
      patchA.is_active.getD coffee.is_active ∧
    (applyPatch 9 patchA coffee).created_at = coffee.created_at ∧
    (applyPatch 9 patchA coffee).updated_at = 9 ∧
    (2 ≠ 1 →
      lookupItem 2 (update_item 9 storeA 1 patchA).2.items =
        lookupItem 2 storeA.items) :=
  C9_partial_update 9 storeA 1 2 patchA coffee (by with_unfolding_all decide)

theorem mem_insertSaleDesc {x s : Sale} :
    ∀ {l : List Sale}, x ∈ insertSaleDesc s l ↔ x = s ∨ x ∈ l
  | [] => by simp [insertSaleDesc]
  | t :: ts => by
    simp only [insertSaleDesc]
    split
    · simp [List.mem_cons]
    · simp only [List.mem_cons, mem_insertSaleDesc (l := ts)]
      tauto

theorem pairwise_insertSaleDesc {s : Sale} :
    ∀ {l : List Sale},
      List.Pairwise (fun a b => b.created_at ≤ a.created_at) l →
      List.Pairwise (fun a b => b.created_at ≤ a.created_at) (insertSaleDesc s l)
  | [], _ => by simp [insertSaleDesc]
  | t :: ts, h => by
    rw [List.pairwise_cons] at h
    obtain ⟨h1, h2⟩ := h
    simp only [insertSaleDesc]
    split
    · rename_i hlt
      rw [List.pairwise_cons]
      refine ⟨?_, ?_⟩
      · intro x hx
        rcases List.mem_cons.mp hx with hx | hx
        · subst hx
          omega
        · have := h1 x hx
          omega
      · rw [List.pairwise_cons]
        exact ⟨h1, h2⟩
    · rename_i hge
      rw [List.pairwise_cons]
      refine ⟨?_, pairwise_insertSaleDesc h2⟩
      intro x hx
      rcases mem_insertSaleDesc.mp hx with hx | hx
      · subst hx
        omega
      · exact h1 x hx

theorem sortSalesDesc_pairwise :
    ∀ l : List Sale,
      List.Pairwise (fun a b => b.created_at ≤ a.created_at) (sortSalesDesc l)
  | [] => by simp [sortSalesDesc]
  | x :: xs => by
    simp only [sortSalesDesc, List.foldr_cons]
    exact pairwise_insertSaleDesc (sortSalesDesc_pairwise xs)

/-- C8 counterexample: `limit=501` is rejected by the `Query(50, ge=1,
le=500)` validation with a 422, not clamped into range. -/
theorem C8_limit_counterexample :
    list_sales storeA (some 501) none none = .error .unprocessable ∧
    ApiError.unprocessable.status = 422 := by
  with_unfolding_all decide

/-- C8 (amended): an out-of-range `limit` is rejected with a 422
validation error rather than clamped; an absent `limit` defaults to 50;
and every successful call returns at most `limit` Sales, ordered by
creation time descending. -/
theorem C8_limit_handling (st : Store) (l : ℤ) (start end_ : Option String) :
    ((l < 1 ∨ 500 < l) →
      list_sales st (some l) start end_ = .error .unprocessable) ∧
    list_sales st none start end_ = list_sales st (some 50) start end_ ∧
    (∀ res, list_sales st (some l) start end_ = .ok res →
      res.length ≤ l.toNat ∧
      List.Pairwise (fun a b : Sale => b.created_at ≤ a.created_at) res) := by
  refine ⟨?_, ?_, ?_⟩
  · intro hout
    have hcond : ¬ (1 ≤ l ∧ l ≤ 500) := by omega
    simp only [list_sales, if_neg hcond]
  · simp only [list_sales, if_pos (by norm_num : (1 : ℤ) ≤ 50 ∧ (50 : ℤ) ≤ 500)]
    rfl
  · intro res h
    simp only [list_sales] at h
    split at h
    · split at h
      · exact Except.noConfusion h
      · rename_i g lt hpr
        simp only [Except.ok.injEq] at h
        subst h
        refine ⟨List.length_take_le _ _, ?_⟩
        exact (sortSalesDesc_pairwise _).sublist (List.take_sublist _ _)
    · exact Except.noConfusion h

/-- Witness for C8: limit 501 rejected; default equals limit 50; a
successful call (limit 2 on the empty sales list) returns at most 2
sales in descending order. -/
theorem C8_limit_handling_witness :
    list_sales storeA (some 501) none none = .error .unprocessable ∧
    list_sales storeA none none none = list_sales storeA (some 50) none none ∧
    (([] : List Sale).length ≤ (2 : ℤ).toNat ∧
      List.Pairwise (fun a b : Sale => b.created_at ≤ a.created_at)
        ([] : List Sale)) :=
  ⟨(C8_limit_handling storeA 501 none none).1 (Or.inr (by norm_num)),
   (C8_limit_handling storeA 50 none none).2.1,
   (C8_limit_handling storeA 2 none none).2.2 []
     (by with_unfolding_all decide)⟩

/-- C10 counterexample: the empty string is not a parseable ISO-8601
timestamp (`fromisoformat` rejects it), yet `?start=` is falsy in Python
(`if start or end:`), so both endpoints skip the parse and answer 200
instead of 500. -/
theorem C10_empty_start_counterexample :
    fromisoformat "" = none ∧
    list_sales storeA none (some "") none = .ok [] ∧
    stats_top storeA (some "") none = .ok (none, none) := by
  with_unfolding_all decide

/-- C10 (amended): for every call to `GET /api/sales` (with an in-range or
absent limit) or `GET /api/stats/top` whose `start` or `end` parameter is
a non-empty string that `datetime.fromisoformat` cannot parse, the parse
raises an unhandled exception and the request returns HTTP 500, not a 400
validation error.  (An empty-string parameter is falsy and skipped.) -/
theorem C10_unparseable_dates (st : Store) (l : ℤ) (s : String)
    (e_ : Option String) (hs : s ≠ "") (hp : fromisoformat s = none)
    (hl : 1 ≤ l ∧ l ≤ 500) :
    list_sales st (some l) (some s) e_ = .error .internal ∧
    list_sales st none (some s) e_ = .error .internal ∧
    stats_top st (some s) e_ = .error .internal ∧
    list_sales st (some l) none (some s) = .error .internal ∧
    list_sales st none none (some s) = .error .internal ∧
    stats_top st none (some s) = .error .internal ∧
    ApiError.internal.status = 500 ∧ ApiError.internal.status ≠ 400 := by
  have hparse : parse_range (some s) e_ = .error .internal := by
    simp [parse_range, truthyStr, if_neg hs, parseOpt, hp]
  have hparse2 : parse_range none (some s) = .error .internal := by
    simp [parse_range, truthyStr, if_neg hs, parseOpt, hp]
  refine ⟨?_, ?_, ?_, ?_, ?_, ?_, rfl, by decide⟩
  · simp only [list_sales, if_pos hl, hparse]
  · simp only [list_sales, hparse]
  · simp only [stats_top, hparse]
  · simp only [list_sales, if_pos hl, hparse2]
  · simp only [list_sales, hparse2]
  · simp only [stats_top, hparse2]

/-- Witness for C10 with the unparseable string "not-a-date". -/
theorem C10_unparseable_dates_witness :
    list_sales storeA (some 50) (some "not-a-date") none = .error .internal ∧
    list_sales storeA none (some "not-a-date") none = .error .internal ∧
    stats_top storeA (some "not-a-date") none = .error .internal ∧
    list_sales storeA (some 50) none (some "not-a-date") = .error .internal ∧
    list_sales storeA none none (some "not-a-date") = .error .internal ∧
    stats_top storeA none (some "not-a-date") = .error .internal ∧
    ApiError.internal.status = 500 ∧ ApiError.internal.status ≠ 400 :=
  C10_unparseable_dates storeA 50 "not-a-date" none (by decide) (by decide)
    (by norm_num)

end HotelPOS
